import Mathlib

/-!
# bootkube: `pkg/bootkube/bootkube.go`

A shallow embedding of `NewBootkube` and `(*bootkube).Run`.

* Go strings are `String`, a Go `error` is an `Option String` (`none` is `nil`),
  a `time.Duration` is a number of nanoseconds.
* `NewBootkube` is a function of the `Config`; the three option objects it fills
  through `pflag` are represented by the argument lists handed to `Parse`.  The
  flag sets are created with `pflag.ExitOnError`, so a rejected argument list
  ends the process; what `Parse` accepts is decided by `pflag` and by the flags
  the components declare, both outside the repository, and is a parameter
  (`Parser`).
* `Run` starts five goroutines that share the unbuffered channel `errch` and then
  performs a single receive.  It is embedded as a transition system whose state
  records which goroutines are still inside their call, which are blocked in a
  send on `errch`, and what the receive of `Run` has taken.  The entry points
  called by the goroutines (`apiapp.Run`, `cmapp.Run`, `schedapp.Run`,
  `CreateAssets`, `WaitUntilPodsRunning`) are not part of this file of the
  repository; their behaviour is a parameter (`World`).
-/

namespace Bootkube

/-! ## Go values -/

/-- A Go `error`: `none` is `nil`, `some msg` is an error carrying `msg`. -/
abbrev GoError := Option String

/-- A `time.Duration`, counted in nanoseconds. -/
abbrev Duration := Nat

/-- The constant `time.Minute`. -/
def time.Minute : Duration := 60 * 1000000000

/-- The result of evaluating a Go function: it returns a value, it panics, or
the process exits inside it (`os.Exit`). -/
inductive Go (α : Type) where
  | returned (a : α)
  | panicked (msg : String)
  | exited
  deriving DecidableEq, Repr

/-! ## `path/filepath` on a Unix system -/

/-- Splits a path at every `/`. -/
def filepath.splitSlash : List Char → List (List Char)
  | [] => [[]]
  | c :: cs =>
    match filepath.splitSlash cs with
    | [] => if c = '/' then [[], []] else [[c]]
    | e :: es => if c = '/' then [] :: e :: es else (c :: e) :: es

/-- The element-wise pass of `Clean`: `out` is the cleaned path so far, last
element first.  Empty elements and `.` are dropped, `..` removes the element
before it when there is one to remove, is dropped at the root, and is kept
otherwise. -/
def filepath.cleanElems (rooted : Bool) : List (List Char) → List (List Char) → List (List Char)
  | out, [] => out
  | out, e :: es =>
    if e = [] ∨ e = ['.'] then filepath.cleanElems rooted out es
    else if e = ['.', '.'] then
      match out with
      | top :: below =>
        if top = ['.', '.'] then filepath.cleanElems rooted (e :: out) es
        else filepath.cleanElems rooted below es
      | [] =>
        if rooted then filepath.cleanElems rooted [] es
        else filepath.cleanElems rooted [e] es
    else filepath.cleanElems rooted (e :: out) es

/-- The function `filepath.Clean`: the shortest path equivalent to `path` by
purely lexical processing. -/
def filepath.Clean (path : String) : String :=
  if path = "" then "."
  else
    let rooted := path.data.head? = some '/'
    let out := (filepath.cleanElems rooted [] (filepath.splitSlash path.data)).reverse
    let body := String.mk (List.intercalate ['/'] out)
    if rooted then "/" ++ body
    else if out = [] then "." else body

/-- The function `filepath.Join`: leading empty elements are ignored, the rest is
joined with `/` and cleaned; the result is empty when every element is. -/
def filepath.Join (elem : List String) : String :=
  match elem.dropWhile (fun e => e = "") with
  | [] => ""
  | es => filepath.Clean (String.mk (List.intercalate ['/'] (es.map String.data)))

/-! ## Constants and types of the package -/

/-- The constant `assetTimeout`. -/
def assetTimeout : Duration := 10 * time.Minute

/-- The constant `insecureAPIAddr`. -/
def insecureAPIAddr : String := "http://127.0.0.1:8081"

/-- The variable `requiredPods`. -/
def requiredPods : List String :=
  [ "kubelet",
    "kube-apiserver",
    "kube-scheduler",
    "kube-controller-manager" ]

/-- The relative asset paths that `bootkube.go` reads from package `asset`
(`asset.AssetPathAPIServerKey` and so on).  The package is declared outside this
file, so the constants are a parameter of the embedding. -/
structure AssetPaths where
  AssetPathAPIServerKey : String
  AssetPathAPIServerCert : String
  AssetPathCACert : String
  AssetPathServiceAccountPubKey : String
  AssetPathServiceAccountPrivKey : String
  AssetPathManifests : String
  deriving DecidableEq, Repr

/-- A `url.URL`.  `NewBootkube` only calls its `String` method, so a URL is
represented by the text that method renders. -/
structure URL where
  rendered : String
  deriving DecidableEq, Repr

/-- The method `(*url.URL).String`. -/
def URL.String (u : URL) : String := u.rendered

/-- The struct `Config`; `EtcdServer` is a pointer, `none` is `nil`. -/
structure Config where
  AssetDir : String
  EtcdServer : Option URL
  deriving DecidableEq, Repr

/-- An `apiserver.APIServer` as `NewBootkube` leaves it: the defaults of
`NewAPIServer()` overridden by the arguments parsed by its flag set. -/
structure APIServer where
  args : List String
  deriving DecidableEq, Repr

/-- A `controller.CMServer`: the defaults overridden by the parsed arguments. -/
structure CMServer where
  args : List String
  deriving DecidableEq, Repr

/-- A `scheduler.SchedulerServer`: the defaults overridden by the parsed arguments. -/
structure SchedulerServer where
  args : List String
  deriving DecidableEq, Repr

/-- The struct `bootkube`. -/
structure bootkube where
  assetDir : String
  apiServer : APIServer
  controller : CMServer
  scheduler : SchedulerServer
  deriving DecidableEq, Repr

/-! ## `NewBootkube` -/

/-- The arguments `NewBootkube` parses into the API server's flag set. -/
def NewBootkube.apiServerArgs (asset : AssetPaths) (AssetDir : String) (etcd : URL) : List String :=
  [ "--bind-address=0.0.0.0",
    "--secure-port=886",
    "--insecure-port=8081",
    "--allow-privileged=true",
    "--tls-private-key-file=" ++ filepath.Join [AssetDir, asset.AssetPathAPIServerKey],
    "--tls-cert-file=" ++ filepath.Join [AssetDir, asset.AssetPathAPIServerCert],
    "--client-ca-file=" ++ filepath.Join [AssetDir, asset.AssetPathCACert],
    "--etcd-servers=" ++ etcd.String,
    "--service-cluster-ip-range=10.3.0.0/24",
    "--service-account-key-file=" ++ filepath.Join [AssetDir, asset.AssetPathServiceAccountPubKey],
    "--admission-control=ServiceAccount",
    "--runtime-config=extensions/v1beta1/deployments=true,extensions/v1beta1/daemonsets=true" ]

/-- The arguments `NewBootkube` parses into the controller manager's flag set. -/
def NewBootkube.cmServerArgs (asset : AssetPaths) (AssetDir : String) : List String :=
  [ "--master=" ++ insecureAPIAddr,
    "--service-account-private-key-file=" ++
      filepath.Join [AssetDir, asset.AssetPathServiceAccountPrivKey],
    "--root-ca-file=" ++ filepath.Join [AssetDir, asset.AssetPathCACert],
    "--leader-elect=true" ]

/-- The arguments `NewBootkube` parses into the scheduler's flag set. -/
def NewBootkube.schedServerArgs : List String :=
  [ "--master=" ++ insecureAPIAddr,
    "--leader-elect=true" ]

/-- The method `(*pflag.FlagSet).Parse` before error handling: the error it
finds in `args` for the flag set called `name`, `none` when it accepts them.
The library and the flags declared by `AddFlags` are outside the repository. -/
abbrev Parser := String → List String → GoError

/-- The orchestrator `NewBootkube` assembles from an asset directory and an
endpoint: the three option objects after parsing, and the asset directory. -/
def NewBootkube.assemble (asset : AssetPaths) (AssetDir : String) (etcd : URL) : bootkube :=
  { apiServer := ⟨NewBootkube.apiServerArgs asset AssetDir etcd⟩
    controller := ⟨NewBootkube.cmServerArgs asset AssetDir⟩
    scheduler := ⟨NewBootkube.schedServerArgs⟩
    assetDir := AssetDir }

/-- The function `NewBootkube`.  Its Go result type is `(*bootkube, error)`: the
first component is `none` for a nil pointer.  Building the API server's
arguments dereferences `config.EtcdServer`, which panics on a nil pointer.  The
three flag sets `apiserver`, `controllermanager` and `scheduler` parse their
arguments in turn under `pflag.ExitOnError`: a rejected list exits the process.
The only `return` carries a `nil` error. -/
def NewBootkube (parse : Parser) (asset : AssetPaths) (config : Config) :
    Go (Option bootkube × GoError) :=
  match config.EtcdServer with
  | none => .panicked "runtime error: invalid memory address or nil pointer dereference"
  | some etcd =>
    match parse "apiserver" (NewBootkube.apiServerArgs asset config.AssetDir etcd) with
    | some _ => .exited
    | none =>
      match parse "controllermanager" (NewBootkube.cmServerArgs asset config.AssetDir) with
      | some _ => .exited
      | none =>
        match parse "scheduler" NewBootkube.schedServerArgs with
        | some _ => .exited
        | none => .returned (some (NewBootkube.assemble asset config.AssetDir etcd), none)

/-! ## `Run` -/

/-- The five goroutines started by `Run`, in the order of the `go` statements. -/
inductive Goroutine where
  | apiServer
  | controller
  | scheduler
  | createAssets
  | waitUntilPodsRunning
  deriving DecidableEq, Repr

/-- A call of one of the entry points the goroutines run, with its arguments. -/
inductive Call where
  | apiappRun (s : APIServer)
  | cmappRun (s : CMServer)
  | schedappRun (s : SchedulerServer)
  | CreateAssets (manifestDir : String) (timeout : Duration)
  | WaitUntilPodsRunning (pods : List String) (timeout : Duration)
  deriving DecidableEq, Repr

/-- What a call of an entry point does: it never returns, or it returns an
`error` (possibly `nil`). -/
inductive Behaviour where
  | blocks
  | returns (err : GoError)
  deriving DecidableEq, Repr

/-- The entry points are outside this file: a `World` fixes what each call does. -/
abbrev World := Call → Behaviour

/-- The call made by each goroutine of `Run`. -/
def Run.call (asset : AssetPaths) (b : bootkube) : Goroutine → Call
  | .apiServer => .apiappRun b.apiServer
  | .controller => .cmappRun b.controller
  | .scheduler => .schedappRun b.scheduler
  | .createAssets =>
    .CreateAssets (filepath.Join [b.assetDir, asset.AssetPathManifests]) assetTimeout
  | .waitUntilPodsRunning => .WaitUntilPodsRunning requiredPods assetTimeout

/-- The values a goroutine sends on `errch` once its call has returned `err`:
the asset goroutine sends only inside `if err != nil`, the others always. -/
def Run.sends : Goroutine → GoError → List GoError
  | .createAssets, err => if err ≠ none then [err] else []
  | _, err => [err]

/-- The state of an execution of `Run` after the five `go` statements.
`running` are the goroutines whose call has not returned; `sendq` are the
goroutines blocked in `errch <- v`, oldest first (`errch` is unbuffered, and the
runtime queues blocked senders in arrival order); `received` is what the
receive `<-errch` of `Run` has taken. -/
structure RunState where
  running : List Goroutine
  sendq : List (Goroutine × GoError)
  received : List (Goroutine × GoError)
  deriving DecidableEq, Repr

/-- The state in which `Run` reaches `return <-errch`. -/
def Run.init : RunState :=
  { running := [.apiServer, .controller, .scheduler, .createAssets, .waitUntilPodsRunning]
    sendq := []
    received := [] }

/-- The events of an execution: the call of a goroutine returns, or `Run`
performs its receive. -/
inductive Event where
  | callReturns (g : Goroutine)
  | receive
  deriving DecidableEq, Repr

/-- One event.  An event that cannot happen in `s` leaves it unchanged: a call
returns only if the goroutine is still running and the world lets the call
return; `Run` receives only once, and only from a blocked sender. -/
def Run.step (w : World) (asset : AssetPaths) (b : bootkube) (s : RunState) : Event → RunState
  | .callReturns g =>
    if g ∈ s.running then
      match w (Run.call asset b g) with
      | .blocks => s
      | .returns err =>
        { s with
          running := s.running.erase g
          sendq := s.sendq ++ (Run.sends g err).map (fun v => (g, v)) }
    else s
  | .receive =>
    match s.received, s.sendq with
    | [], x :: rest => { s with sendq := rest, received := [x] }
    | _, _ => s

/-- The state after the events of `sched`, in order. -/
def Run.exec (w : World) (asset : AssetPaths) (b : bootkube) (sched : List Event) : RunState :=
  sched.foldl (Run.step w asset b) Run.init

/-- The method `Run` under the schedule `sched`: `some err` when the receive
has happened and `Run` has returned `err`, `none` while `Run` is still blocked
in `<-errch`. -/
def Run (w : World) (asset : AssetPaths) (b : bootkube) (sched : List Event) : Option GoError :=
  ((Run.exec w asset b sched).received.head?).map Prod.snd

/-- Every value submitted to `errch` so far, in order of submission: the one
taken by `Run` followed by those still blocked. -/
def RunState.submitted (s : RunState) : List (Goroutine × GoError) :=
  s.received ++ s.sendq

/-- The values goroutine `g` has submitted to `errch` so far. -/
def RunState.sentBy (s : RunState) (g : Goroutine) : List GoError :=
  (s.submitted.filter (fun x => x.1 = g)).map Prod.snd

/-! ## Reading a flag out of an argument list -/

/-- Splits `--name=value` into `(name, value)` at the first `=`, as the flag
parser does; `none` for an argument without the leading `--` or without `=`. -/
def parseArg (arg : String) : Option (String × String) :=
  match arg.data with
  | '-' :: '-' :: rest =>
    if '=' ∈ rest then
      some (String.mk (rest.takeWhile (fun c => c ≠ '=')),
            String.mk ((rest.dropWhile (fun c => c ≠ '=')).drop 1))
    else none
  | _ => none

/-- The value the flag `name` ends up with after parsing `args`: the value of
its last occurrence. -/
def flagValue (name : String) (args : List String) : Option String :=
  ((args.filterMap parseArg).reverse.find? (fun p => p.1 = name)).map Prod.snd

/-- The names of the flags set by `args`, in order. -/
def flagNames (args : List String) : List String :=
  (args.filterMap parseArg).map Prod.fst

/-- The port of an address `scheme://host:port`: the text after the last `:`. -/
def addrPort (addr : String) : String :=
  String.mk ((addr.data.reverse.takeWhile (fun c => c ≠ ':')).reverse)

/-! ## Example inputs -/

/-- Asset paths for the examples. -/
def exampleAssets : AssetPaths :=
  { AssetPathAPIServerKey := "tls/apiserver.key"
    AssetPathAPIServerCert := "tls/apiserver.crt"
    AssetPathCACert := "tls/ca.crt"
    AssetPathServiceAccountPubKey := "tls/service-account.pub"
    AssetPathServiceAccountPrivKey := "tls/service-account.key"
    AssetPathManifests := "manifests" }

/-- A well-formed configuration. -/
def exampleConfig : Config :=
  { AssetDir := "/tmp/x", EtcdServer := some ⟨"http://127.0.0.1:2379"⟩ }

/-- A configuration with an empty asset directory. -/
def emptyDirConfig : Config :=
  { AssetDir := "", EtcdServer := some ⟨"http://127.0.0.1:2379"⟩ }

/-- A configuration whose endpoint renders with a double quote in it. -/
def quotedEndpointConfig : Config :=
  { AssetDir := "/tmp/x"
    EtcdServer := some ⟨"http://a" ++ String.singleton (Char.ofNat 34) ++ "b:2379"⟩ }

/-- An example parser: it rejects an argument list in which some argument holds
a double quote, as a comma-separated list flag does for a bare quote, and
accepts every other list. -/
def exampleParser : Parser := fun _ args =>
  if args.any (fun a => Char.ofNat 34 ∈ a.data) then some "bare quote in non-quoted field"
  else none

/-- The orchestrator `NewBootkube` builds from `exampleConfig`. -/
def exampleBootkube : bootkube :=
  { assetDir := "/tmp/x"
    apiServer := ⟨NewBootkube.apiServerArgs exampleAssets "/tmp/x" ⟨"http://127.0.0.1:2379"⟩⟩
    controller := ⟨NewBootkube.cmServerArgs exampleAssets "/tmp/x"⟩
    scheduler := ⟨NewBootkube.schedServerArgs⟩ }

/-- A world in which both setup tasks succeed and no component exits. -/
def setupSucceeds : World
  | .CreateAssets _ _ => .returns none
  | .WaitUntilPodsRunning _ _ => .returns none
  | _ => .blocks

/-- A world in which asset creation succeeds and no other call ever returns. -/
def onlyAssetsSucceed : World
  | .CreateAssets _ _ => .returns none
  | _ => .blocks

/-- A world in which asset creation fails with its own error, however late, and
no other call ever returns. -/
def assetsFailLate : World
  | .CreateAssets _ _ => .returns (some "create assets: boom")
  | _ => .blocks

/-- A world in which the API server and the controller manager both exit with an
error and no other call returns. -/
def twoComponentsExit : World
  | .apiappRun _ => .returns (some "bind failed")
  | .cmappRun _ => .returns (some "lost lease")
  | _ => .blocks

/-- A world in which the API server exits with `bind failed` and both setup
tasks succeed. -/
def apiServerExits : World
  | .apiappRun _ => .returns (some "bind failed")
  | .CreateAssets _ _ => .returns none
  | .WaitUntilPodsRunning _ _ => .returns none
  | _ => .blocks


/-! ## Lemmas on the transition system -/

theorem exec_append (w : World) (asset : AssetPaths) (b : bootkube) (pre post : List Event) :
    Run.exec w asset b (pre ++ post)
      = post.foldl (Run.step w asset b) (Run.exec w asset b pre) := by
  simp [Run.exec, List.foldl_append]

theorem exec_snoc (w : World) (asset : AssetPaths) (b : bootkube) (pre : List Event) (e : Event) :
    Run.exec w asset b (pre ++ [e]) = Run.step w asset b (Run.exec w asset b pre) e := by
  simp [exec_append]

theorem step_callReturns_cases (w : World) (asset : AssetPaths) (b : bootkube) (s : RunState)
    (g : Goroutine) :
    Run.step w asset b s (.callReturns g) = s ∨
    ∃ err, g ∈ s.running ∧ w (Run.call asset b g) = .returns err ∧
      Run.step w asset b s (.callReturns g)
        = { s with
            running := s.running.erase g
            sendq := s.sendq ++ (Run.sends g err).map (fun v => (g, v)) } := by
  unfold Run.step
  by_cases hg : g ∈ s.running
  · cases hw : w (Run.call asset b g) with
    | blocks => left; simp [hg, hw]
    | returns err => right; exact ⟨err, hg, rfl, by simp [hg, hw]⟩
  · left; simp [hg]

theorem step_receive_cases (w : World) (asset : AssetPaths) (b : bootkube) (s : RunState) :
    Run.step w asset b s .receive = s ∨
    ∃ x rest, s.received = [] ∧ s.sendq = x :: rest ∧
      Run.step w asset b s .receive = { s with sendq := rest, received := [x] } := by
  unfold Run.step
  rcases s with ⟨r, q, rc⟩
  cases rc with
  | nil =>
    cases q with
    | nil => left; rfl
    | cons x rest => right; exact ⟨x, rest, rfl, rfl, rfl⟩
  | cons y ys => left; rfl

theorem step_submitted (w : World) (asset : AssetPaths) (b : bootkube) (s : RunState) (e : Event) :
    ∃ l, (Run.step w asset b s e).submitted = s.submitted ++ l := by
  cases e with
  | callReturns g =>
    rcases step_callReturns_cases w asset b s g with h | ⟨err, _, _, h⟩
    · exact ⟨[], by simp [h]⟩
    · exact ⟨_, by simp [h, RunState.submitted]; rfl⟩
  | receive =>
    rcases step_receive_cases w asset b s with h | ⟨x, rest, h₁, h₂, h⟩
    · exact ⟨[], by simp [h]⟩
    · exact ⟨[], by simp [h, RunState.submitted, h₁, h₂]⟩

theorem foldl_submitted (w : World) (asset : AssetPaths) (b : bootkube) (sched : List Event) :
    ∀ s : RunState, ∃ l, (sched.foldl (Run.step w asset b) s).submitted = s.submitted ++ l := by
  induction sched with
  | nil => intro s; exact ⟨[], by simp⟩
  | cons e es ih =>
    intro s
    obtain ⟨l₁, h₁⟩ := step_submitted w asset b s e
    obtain ⟨l₂, h₂⟩ := ih (Run.step w asset b s e)
    exact ⟨l₁ ++ l₂, by simp [List.foldl_cons, h₂, h₁, List.append_assoc]⟩

/-- Once `Run` has received, no event changes what it received, and the blocked
senders stay blocked: the queue only grows. -/
theorem step_after_receive (w : World) (asset : AssetPaths) (b : bootkube) (s : RunState)
    (e : Event) (h : s.received ≠ []) :
    (Run.step w asset b s e).received = s.received ∧
    ∃ l, (Run.step w asset b s e).sendq = s.sendq ++ l := by
  cases e with
  | callReturns g =>
    rcases step_callReturns_cases w asset b s g with h' | ⟨err, _, _, h'⟩
    · exact ⟨by rw [h'], [], by simp [h']⟩
    · exact ⟨by rw [h'], _, by rw [h']⟩
  | receive =>
    rcases step_receive_cases w asset b s with h' | ⟨x, rest, h₁, _, _⟩
    · exact ⟨by rw [h'], [], by simp [h']⟩
    · exact absurd h₁ h

theorem foldl_after_receive (w : World) (asset : AssetPaths) (b : bootkube) (sched : List Event) :
    ∀ s : RunState, s.received ≠ [] →
      (sched.foldl (Run.step w asset b) s).received = s.received ∧
      ∃ l, (sched.foldl (Run.step w asset b) s).sendq = s.sendq ++ l := by
  induction sched with
  | nil => intro s _; exact ⟨rfl, [], by simp⟩
  | cons e es ih =>
    intro s h
    obtain ⟨h₁, l₁, h₂⟩ := step_after_receive w asset b s e h
    obtain ⟨h₃, l₂, h₄⟩ := ih (Run.step w asset b s e) (by rw [h₁]; exact h)
    refine ⟨by simp [List.foldl_cons, h₃, h₁], l₁ ++ l₂, ?_⟩
    simp [List.foldl_cons, h₄, h₂, List.append_assoc]

/-- `Run` receives at most once. -/
theorem step_received_le (w : World) (asset : AssetPaths) (b : bootkube) (s : RunState)
    (e : Event) (h : s.received.length ≤ 1) : (Run.step w asset b s e).received.length ≤ 1 := by
  cases e with
  | callReturns g =>
    rcases step_callReturns_cases w asset b s g with h' | ⟨err, _, _, h'⟩ <;> rw [h'] <;> exact h
  | receive =>
    rcases step_receive_cases w asset b s with h' | ⟨x, rest, _, _, h'⟩
    · rw [h']; exact h
    · rw [h']; simp

theorem exec_received_le (w : World) (asset : AssetPaths) (b : bootkube) (sched : List Event) :
    (Run.exec w asset b sched).received.length ≤ 1 := by
  induction sched using List.reverseRecOn with
  | nil => simp [Run.exec, Run.init]
  | append_singleton es e ih => rw [exec_snoc]; exact step_received_le w asset b _ e ih

/-- What `Run` has received is the oldest submission. -/
theorem received_head (s : RunState) (h : s.received ≠ []) :
    s.received.head? = s.submitted.head? := by
  rcases s with ⟨r, q, rc⟩
  cases rc with
  | nil => exact absurd rfl h
  | cons y ys => rfl

/-- A receive takes a submission when there is one. -/
theorem step_receive_nonempty (w : World) (asset : AssetPaths) (b : bootkube) (s : RunState)
    (h : s.submitted ≠ []) : (Run.step w asset b s .receive).received ≠ [] := by
  rcases s with ⟨r, q, rc⟩
  cases rc with
  | cons y ys => simp [Run.step]
  | nil =>
    cases q with
    | nil => simp [RunState.submitted] at h
    | cons x rest => simp [Run.step]

theorem foldl_receive_nonempty (w : World) (asset : AssetPaths) (b : bootkube)
    (sched : List Event) :
    ∀ s : RunState, s.submitted ≠ [] → Event.receive ∈ sched →
      (sched.foldl (Run.step w asset b) s).received ≠ [] := by
  induction sched with
  | nil => intro s _ h; simp at h
  | cons e es ih =>
    intro s hs hmem
    have hsub : (Run.step w asset b s e).submitted ≠ [] := by
      obtain ⟨l, hl⟩ := step_submitted w asset b s e
      rw [hl]; simp [hs]
    rw [List.foldl_cons]
    by_cases he : e = Event.receive
    · subst he
      have hne := step_receive_nonempty w asset b s hs
      rw [(foldl_after_receive w asset b es _ hne).1]; exact hne
    · have : Event.receive ∈ es := by
        rcases List.mem_cons.mp hmem with h | h
        · exact absurd h.symm he
        · exact h
      exact ih _ hsub this

/-- The first submission wins: whatever happens afterwards, `Run` has either not
received yet or has received the oldest submission, and it has received once a
receive event has occurred. -/
theorem first_submission_wins (w : World) (asset : AssetPaths) (b : bootkube)
    (s : RunState) (x : Goroutine × GoError) (sched : List Event)
    (hx : s.submitted.head? = some x) :
    ((sched.foldl (Run.step w asset b) s).received = [] ∨
      (sched.foldl (Run.step w asset b) s).received.head? = some x) ∧
    (Event.receive ∈ sched → (sched.foldl (Run.step w asset b) s).received.head? = some x) := by
  have hne : s.submitted ≠ [] := by intro h; simp [h] at hx
  have hhead : (sched.foldl (Run.step w asset b) s).submitted.head? = some x := by
    obtain ⟨l, hl⟩ := foldl_submitted w asset b sched s
    rw [hl, List.head?_append_of_ne_nil _ hne]; exact hx
  constructor
  · by_cases h : (sched.foldl (Run.step w asset b) s).received = []
    · exact Or.inl h
    · exact Or.inr (by rw [received_head _ h]; exact hhead)
  · intro hmem
    rw [received_head _ (foldl_receive_nonempty w asset b sched s hne hmem)]; exact hhead

theorem mem_sends (g : Goroutine) (err v : GoError) (h : v ∈ Run.sends g err) :
    v = err ∧ (g = .createAssets → err ≠ none) := by
  cases g <;> simp [Run.sends] at h ⊢
  all_goals first | exact h | (obtain ⟨h₁, h₂⟩ := h; exact ⟨h₂, h₁⟩)

theorem sends_eq (g : Goroutine) (err : GoError) :
    Run.sends g err = if g = .createAssets ∧ err = none then [] else [err] := by
  cases g <;> cases err <;> simp [Run.sends]

/-- Every submission is the value returned by the call of the goroutine that
submitted it, after that call returned; the asset goroutine submits errors only. -/
theorem exec_provenance (w : World) (asset : AssetPaths) (b : bootkube) (sched : List Event) :
    ∀ x ∈ (Run.exec w asset b sched).submitted,
      Event.callReturns x.1 ∈ sched ∧ w (Run.call asset b x.1) = .returns x.2 ∧
      (x.1 = .createAssets → x.2 ≠ none) := by
  induction sched using List.reverseRecOn with
  | nil => intro x hx; simp [Run.exec, Run.init, RunState.submitted] at hx
  | append_singleton es e ih =>
    intro x hx
    rw [exec_snoc] at hx
    have old : x ∈ (Run.exec w asset b es).submitted →
        Event.callReturns x.1 ∈ es ++ [e] ∧ w (Run.call asset b x.1) = .returns x.2 ∧
        (x.1 = .createAssets → x.2 ≠ none) := by
      intro h
      obtain ⟨h₁, h₂⟩ := ih x h
      exact ⟨List.mem_append_left _ h₁, h₂⟩
    cases e with
    | callReturns g =>
      rcases step_callReturns_cases w asset b (Run.exec w asset b es) g with h | ⟨err, _, hw, h⟩
      · rw [h] at hx; exact old hx
      · rw [h] at hx
        simp only [RunState.submitted] at hx
        rw [← List.append_assoc] at hx
        rcases List.mem_append.mp hx with hx | hx
        · exact old hx
        · obtain ⟨v, hv, rfl⟩ := List.mem_map.mp hx
          obtain ⟨rfl, hnil⟩ := mem_sends g err v hv
          exact ⟨by simp, hw, hnil⟩
    | receive =>
      obtain ⟨l, hl⟩ := step_submitted w asset b (Run.exec w asset b es) .receive
      rcases step_receive_cases w asset b (Run.exec w asset b es) with h | ⟨y, rest, h₁, h₂, h⟩
      · rw [h] at hx; exact old hx
      · rw [h] at hx
        apply old
        simpa [RunState.submitted, h₁, h₂] using hx

theorem mem_init_running (g : Goroutine) : g ∈ Run.init.running := by
  cases g <;> simp [Run.init]

/-- A goroutine whose call has not returned has submitted nothing; one whose
call has returned `r` has submitted exactly `Run.sends g r`. -/
theorem exec_sentBy (w : World) (asset : AssetPaths) (b : bootkube) (sched : List Event) :
    (Run.exec w asset b sched).running.Nodup ∧
    ∀ g, (g ∈ (Run.exec w asset b sched).running → (Run.exec w asset b sched).sentBy g = []) ∧
      (g ∉ (Run.exec w asset b sched).running →
        ∃ r, w (Run.call asset b g) = .returns r ∧
          (Run.exec w asset b sched).sentBy g = Run.sends g r) := by
  induction sched using List.reverseRecOn with
  | nil =>
    refine ⟨by simp [Run.exec, Run.init], fun g => ⟨fun _ => ?_, fun h => ?_⟩⟩
    · simp [Run.exec, Run.init, RunState.sentBy, RunState.submitted]
    · exact absurd (mem_init_running g) h
  | append_singleton es e ih =>
    rw [exec_snoc]
    obtain ⟨hnd, ih⟩ := ih
    cases e with
    | callReturns g₀ =>
      rcases step_callReturns_cases w asset b (Run.exec w asset b es) g₀ with h | ⟨err, hg₀, hw, h⟩
      · rw [h]; exact ⟨hnd, ih⟩
      · rw [h]
        refine ⟨hnd.erase g₀, fun g => ?_⟩
        have hsent : ∀ g, RunState.sentBy
            { (Run.exec w asset b es) with
              running := (Run.exec w asset b es).running.erase g₀
              sendq := (Run.exec w asset b es).sendq ++ (Run.sends g₀ err).map (fun v => (g₀, v)) } g
            = (Run.exec w asset b es).sentBy g ++ if g₀ = g then Run.sends g₀ err else [] := by
          intro g
          simp only [RunState.sentBy, RunState.submitted]
          rw [← List.append_assoc, List.filter_append, List.map_append]
          congr 1
          by_cases hgg : g₀ = g
          · subst hgg
            simp [List.filter_map, Function.comp_def]
          · simp [hgg, List.filter_map, Function.comp_def]
        rw [hsent g]
        by_cases hgg : g₀ = g
        · subst hgg
          refine ⟨fun hmem => ?_, fun _ => ⟨err, hw, ?_⟩⟩
          · exact absurd hmem (by simp [hnd.mem_erase_iff])
          · simp [(ih g₀).1 hg₀]
        · have hmem : g ∈ (Run.exec w asset b es).running.erase g₀ ↔
              g ∈ (Run.exec w asset b es).running := by
            rw [hnd.mem_erase_iff]; exact ⟨fun h => h.2, fun h => ⟨fun h' => hgg h'.symm, h⟩⟩
          simp only [hgg, if_false, List.append_nil]
          exact ⟨fun hm => (ih g).1 (hmem.mp hm), fun hm => (ih g).2 (fun h' => hm (hmem.mpr h'))⟩
    | receive =>
      rcases step_receive_cases w asset b (Run.exec w asset b es) with h | ⟨y, rest, h₁, h₂, h⟩
      · rw [h]; exact ⟨hnd, ih⟩
      · rw [h]
        have hsent : ∀ g, RunState.sentBy
            { (Run.exec w asset b es) with sendq := rest, received := [y] } g
            = (Run.exec w asset b es).sentBy g := by
          intro g; simp [RunState.sentBy, RunState.submitted, h₁, h₂]
        refine ⟨hnd, fun g => ?_⟩
        rw [hsent g]; exact ih g

/-- The value `Run` returns is the second component of the oldest submission. -/
theorem Run_eq_some (w : World) (asset : AssetPaths) (b : bootkube) (sched : List Event)
    (v : GoError) (h : Run w asset b sched = some v) :
    ∃ g, (g, v) ∈ (Run.exec w asset b sched).submitted := by
  unfold Run at h
  cases hr : (Run.exec w asset b sched).received with
  | nil => simp [hr] at h
  | cons y ys =>
    simp [hr] at h
    exact ⟨y.1, by simp [RunState.submitted, hr, ← h]⟩

/-- A goroutine that submits whatever its call returns is still inside its call
as long as nothing has been submitted. -/
theorem running_of_nothing_submitted (w : World) (asset : AssetPaths) (b : bootkube)
    (sched : List Event) (g : Goroutine) (hg : g ≠ .createAssets)
    (hfirst : (Run.exec w asset b sched).submitted = []) :
    g ∈ (Run.exec w asset b sched).running := by
  by_contra hnot
  obtain ⟨r, _, hs⟩ := ((exec_sentBy w asset b sched).2 g).2 hnot
  have hempty : (Run.exec w asset b sched).sentBy g = [] := by
    simp [RunState.sentBy, hfirst]
  rw [hempty, sends_eq] at hs
  simp [hg] at hs

/-! ## Lemmas on the flags -/

theorem parseArg_append (p n v : String) (hp : p.data = '-' :: '-' :: (n.data ++ ['=']))
    (hn : ∀ c ∈ n.data, c ≠ '=') : parseArg (p ++ v) = some (n, v) := by
  have hd : (p ++ v).data = '-' :: '-' :: (n.data ++ '=' :: v.data) := by
    rw [String.data_append, hp]; simp
  have htake : (n.data ++ '=' :: v.data).takeWhile (fun c => decide (c ≠ '=')) = n.data := by
    rw [List.takeWhile_append_of_pos (by simpa using hn)]; simp
  have hdrop : (n.data ++ '=' :: v.data).dropWhile (fun c => decide (c ≠ '=')) = '=' :: v.data := by
    rw [List.dropWhile_append_of_pos (by simpa using hn)]; simp
  unfold parseArg
  rw [hd]
  simp only [htake, hdrop]
  simp

theorem apiServerArgs_flags (asset : AssetPaths) (dir : String) (etcd : URL) :
    (NewBootkube.apiServerArgs asset dir etcd).filterMap parseArg =
      [ ("bind-address", "0.0.0.0"),
        ("secure-port", "886"),
        ("insecure-port", "8081"),
        ("allow-privileged", "true"),
        ("tls-private-key-file", filepath.Join [dir, asset.AssetPathAPIServerKey]),
        ("tls-cert-file", filepath.Join [dir, asset.AssetPathAPIServerCert]),
        ("client-ca-file", filepath.Join [dir, asset.AssetPathCACert]),
        ("etcd-servers", etcd.String),
        ("service-cluster-ip-range", "10.3.0.0/24"),
        ("service-account-key-file", filepath.Join [dir, asset.AssetPathServiceAccountPubKey]),
        ("admission-control", "ServiceAccount"),
        ("runtime-config",
          "extensions/v1beta1/deployments=true,extensions/v1beta1/daemonsets=true") ] := by
  have h₁ : parseArg "--bind-address=0.0.0.0" = some ("bind-address", "0.0.0.0") := by decide
  have h₂ : parseArg "--secure-port=886" = some ("secure-port", "886") := by decide
  have h₃ : parseArg "--insecure-port=8081" = some ("insecure-port", "8081") := by decide
  have h₄ : parseArg "--allow-privileged=true" = some ("allow-privileged", "true") := by decide
  have h₅ := fun v => parseArg_append "--tls-private-key-file=" "tls-private-key-file" v
    (by decide) (by decide)
  have h₆ := fun v => parseArg_append "--tls-cert-file=" "tls-cert-file" v (by decide) (by decide)
  have h₇ := fun v => parseArg_append "--client-ca-file=" "client-ca-file" v (by decide) (by decide)
  have h₈ := fun v => parseArg_append "--etcd-servers=" "etcd-servers" v (by decide) (by decide)
  have h₉ : parseArg "--service-cluster-ip-range=10.3.0.0/24"
      = some ("service-cluster-ip-range", "10.3.0.0/24") := by decide
  have h₁₀ := fun v => parseArg_append "--service-account-key-file=" "service-account-key-file" v
    (by decide) (by decide)
  have h₁₁ : parseArg "--admission-control=ServiceAccount"
      = some ("admission-control", "ServiceAccount") := by decide
  have h₁₂ : parseArg
      "--runtime-config=extensions/v1beta1/deployments=true,extensions/v1beta1/daemonsets=true"
      = some ("runtime-config",
          "extensions/v1beta1/deployments=true,extensions/v1beta1/daemonsets=true") := by
    decide
  simp only [NewBootkube.apiServerArgs, List.filterMap_cons, List.filterMap_nil,
    h₁, h₂, h₃, h₄, h₅, h₆, h₇, h₈, h₉, h₁₀, h₁₁, h₁₂]

theorem cmServerArgs_flags (asset : AssetPaths) (dir : String) :
    (NewBootkube.cmServerArgs asset dir).filterMap parseArg =
      [ ("master", insecureAPIAddr),
        ("service-account-private-key-file",
          filepath.Join [dir, asset.AssetPathServiceAccountPrivKey]),
        ("root-ca-file", filepath.Join [dir, asset.AssetPathCACert]),
        ("leader-elect", "true") ] := by
  have h₁ := fun v => parseArg_append "--master=" "master" v (by decide) (by decide)
  have h₂ := fun v => parseArg_append "--service-account-private-key-file="
    "service-account-private-key-file" v (by decide) (by decide)
  have h₃ := fun v => parseArg_append "--root-ca-file=" "root-ca-file" v (by decide) (by decide)
  have h₄ : parseArg "--leader-elect=true" = some ("leader-elect", "true") := by decide
  simp only [NewBootkube.cmServerArgs, List.filterMap_cons, List.filterMap_nil, h₁, h₂, h₃, h₄]

theorem schedServerArgs_flags :
    NewBootkube.schedServerArgs.filterMap parseArg =
      [ ("master", insecureAPIAddr), ("leader-elect", "true") ] := by
  decide

/-- Two flag lists that set the same flags in the same order, with the same value
for `name`, give `name` the same value. -/
theorem find_agree (name : String) (l l' : List (String × String))
    (h : List.Forall₂ (fun p q => p.1 = q.1 ∧ (p.1 = name → p.2 = q.2)) l l') :
    (l.find? (fun p => p.1 = name)).map Prod.snd
      = (l'.find? (fun p => p.1 = name)).map Prod.snd := by
  induction h with
  | nil => rfl
  | @cons p q l l' hpq _ ih =>
    obtain ⟨h₁, h₂⟩ := hpq
    by_cases hn : p.1 = name
    · have hq : q.1 = name := h₁ ▸ hn
      simp [List.find?_cons, hn, hq, h₂ hn]
    · have hq : ¬ q.1 = name := h₁ ▸ hn
      simp [List.find?_cons, hn, hq, ih]

/-- With an endpoint, `NewBootkube` returns the assembled orchestrator and a `nil`
error when the three argument lists are accepted, and the process exits when
one of them is rejected. -/
theorem NewBootkube_of_some (parse : Parser) (asset : AssetPaths) (c : Config) (u : URL)
    (h : c.EtcdServer = some u) :
    NewBootkube parse asset c =
      if parse "apiserver" (NewBootkube.apiServerArgs asset c.AssetDir u) = none ∧
          parse "controllermanager" (NewBootkube.cmServerArgs asset c.AssetDir) = none ∧
          parse "scheduler" NewBootkube.schedServerArgs = none
      then .returned (some (NewBootkube.assemble asset c.AssetDir u), none)
      else .exited := by
  unfold NewBootkube
  rw [h]
  cases h₁ : parse "apiserver" (NewBootkube.apiServerArgs asset c.AssetDir u) <;>
    cases h₂ : parse "controllermanager" (NewBootkube.cmServerArgs asset c.AssetDir) <;>
    cases h₃ : parse "scheduler" NewBootkube.schedServerArgs <;> simp [h₁, h₂, h₃]

/-- Whatever `NewBootkube` returns is the assembled orchestrator with a `nil`
error. -/
theorem NewBootkube_returned (parse : Parser) (asset : AssetPaths) (c : Config)
    (r : Option bootkube × GoError) (hr : NewBootkube parse asset c = .returned r) :
    ∃ u, c.EtcdServer = some u ∧ r = (some (NewBootkube.assemble asset c.AssetDir u), none) := by
  cases h : c.EtcdServer with
  | none => simp [NewBootkube, h] at hr
  | some u =>
    refine ⟨u, rfl, ?_⟩
    rw [NewBootkube_of_some parse asset c u h] at hr
    split at hr
    · injection hr with hr; exact hr.symm
    · cases hr

/-! ## C1: what `Run` returns -/

/-- C1, as stated, fails: when asset creation and readiness polling both succeed
and no component exits, `Run` returns, and what it returns is `nil`. -/
theorem Run_returns_nil_when_setup_succeeds :
    Run setupSucceeds exampleAssets exampleBootkube
      [.callReturns .createAssets, .callReturns .waitUntilPodsRunning, .receive] = some none := by
  decide

/-- C1, amended: whatever `Run` returns is the value returned by the call of one
of the five goroutines, after that call returned, and it is a non-nil error when
it comes from asset creation; so `Run` returns a non-nil error whenever no
component and no readiness poll returns `nil`.  A successful asset creation never
makes `Run` return: when it succeeds and no other call returns, `Run` does not
return at all.  The events of an execution are the returns of the five calls and
the receive of `Run`, in any order. -/
theorem Run_returns_a_unit_result (w : World) (asset : AssetPaths) (b : bootkube)
    (sched : List Event) :
    (∀ v, Run w asset b sched = some v →
      ∃ g, Event.callReturns g ∈ sched ∧ w (Run.call asset b g) = .returns v ∧
        (g = .createAssets → v ≠ none)) ∧
    ((∀ g, g ≠ .createAssets → w (Run.call asset b g) ≠ .returns none) →
      Run w asset b sched ≠ some none) ∧
    (w (Run.call asset b .createAssets) = .returns none →
      (∀ g, g ≠ .createAssets → w (Run.call asset b g) = .blocks) →
      Run w asset b sched = none) := by
  have key : ∀ v, Run w asset b sched = some v →
      ∃ g, Event.callReturns g ∈ sched ∧ w (Run.call asset b g) = .returns v ∧
        (g = .createAssets → v ≠ none) := by
    intro v hv
    obtain ⟨g, hg⟩ := Run_eq_some w asset b sched v hv
    exact ⟨g, exec_provenance w asset b sched (g, v) hg⟩
  refine ⟨key, fun hall hnil => ?_, fun hassets hblocks => ?_⟩
  · obtain ⟨g, _, hw, hne⟩ := key none hnil
    by_cases hg : g = .createAssets
    · exact hne hg rfl
    · exact hall g hg hw
  · cases hr : Run w asset b sched with
    | none => rfl
    | some v =>
      obtain ⟨g, _, hw, hne⟩ := key v hr
      by_cases hg : g = .createAssets
      · subst hg
        rw [hassets] at hw
        injection hw with hw
        exact absurd hw.symm (hne rfl)
      · rw [hblocks g hg] at hw; cases hw

/-- C1 at a concrete input: asset creation succeeds and no other call returns;
`Run` is still blocked after the asset call has returned and a receive was tried. -/
theorem Run_returns_a_unit_result_witness :
    onlyAssetsSucceed (Run.call exampleAssets exampleBootkube .createAssets) = .returns none ∧
    (∀ g, g ≠ .createAssets →
      onlyAssetsSucceed (Run.call exampleAssets exampleBootkube g) = .blocks) ∧
    Run onlyAssetsSucceed exampleAssets exampleBootkube [.callReturns .createAssets, .receive]
      = none :=
  have hblocks : ∀ g, g ≠ .createAssets →
      onlyAssetsSucceed (Run.call exampleAssets exampleBootkube g) = .blocks := by
    intro g hg
    cases g <;> first | rfl | exact absurd rfl hg
  ⟨by decide, hblocks,
    (Run_returns_a_unit_result onlyAssetsSucceed exampleAssets exampleBootkube
      [.callReturns .createAssets, .receive]).2.2 (by decide) hblocks⟩

/-! ## C2: a component's error is returned verbatim -/

/-- C2: for each of the API server, the controller manager and the scheduler, and
every error `e`: if the component's entry point returns `e` when nothing has been
submitted to `errch` before, then whatever the other goroutines do afterwards,
`Run` returns nothing but `e`, and it has returned exactly `e` once its receive
has happened. -/
theorem component_error_is_returned (w : World) (asset : AssetPaths) (b : bootkube)
    (g : Goroutine) (e : GoError) (pre post : List Event)
    (hg : g ∈ [Goroutine.apiServer, Goroutine.controller, Goroutine.scheduler])
    (hw : w (Run.call asset b g) = .returns e)
    (hfirst : (Run.exec w asset b pre).submitted = []) :
    (Run w asset b (pre ++ Event.callReturns g :: post) = none ∨
      Run w asset b (pre ++ Event.callReturns g :: post) = some e) ∧
    (Event.receive ∈ post → Run w asset b (pre ++ Event.callReturns g :: post) = some e) := by
  have hrun : g ∈ (Run.exec w asset b pre).running :=
    running_of_nothing_submitted w asset b pre g
      (by intro h; subst h; simp at hg) hfirst
  have hs : Run.sends g e = [e] := by
    simp only [List.mem_cons, List.mem_singleton, List.not_mem_nil, or_false] at hg
    rcases hg with rfl | rfl | rfl <;> rfl
  have hstep : (Run.step w asset b (Run.exec w asset b pre) (.callReturns g)).submitted.head?
      = some (g, e) := by
    simp only [RunState.submitted] at hfirst
    obtain ⟨h₁, h₂⟩ := List.append_eq_nil.mp hfirst
    simp [Run.step, hrun, hw, RunState.submitted, h₁, h₂, hs]
  have hexec : Run.exec w asset b (pre ++ Event.callReturns g :: post)
      = post.foldl (Run.step w asset b)
          (Run.step w asset b (Run.exec w asset b pre) (.callReturns g)) := by
    rw [exec_append, List.foldl_cons]
  obtain ⟨h₁, h₂⟩ := first_submission_wins w asset b _ (g, e) post hstep
  unfold Run
  rw [hexec]
  refine ⟨?_, fun hmem => by rw [h₂ hmem]; rfl⟩
  rcases h₁ with h | h
  · left; rw [h]; rfl
  · right; rw [h]; rfl

/-- C2 at a concrete input: asset creation succeeds first, then the API server
exits with `bind failed`, then readiness polling succeeds, then `Run` receives. -/
theorem component_error_is_returned_witness :
    Goroutine.apiServer ∈ [Goroutine.apiServer, Goroutine.controller, Goroutine.scheduler] ∧
    apiServerExits (Run.call exampleAssets exampleBootkube .apiServer)
      = .returns (some "bind failed") ∧
    (Run.exec apiServerExits exampleAssets exampleBootkube [.callReturns .createAssets]).submitted
      = [] ∧
    Run apiServerExits exampleAssets exampleBootkube
      ([.callReturns .createAssets] ++ Event.callReturns .apiServer ::
        [.callReturns .waitUntilPodsRunning, .receive]) = some (some "bind failed") :=
  ⟨by decide, by decide, by decide,
    (component_error_is_returned apiServerExits exampleAssets exampleBootkube .apiServer
      (some "bind failed") [.callReturns .createAssets]
      [.callReturns .waitUntilPodsRunning, .receive]
      (by decide) (by decide) (by decide)).2 (by decide)⟩

/-! ## C4: how many values a goroutine submits -/

/-- C4, as stated, fails: after a successful asset creation the asset goroutine
has terminated and has submitted nothing to `errch`. -/
theorem createAssets_success_submits_nothing :
    Goroutine.createAssets ∉
      (Run.exec onlyAssetsSucceed exampleAssets exampleBootkube
        [.callReturns .createAssets]).running ∧
    ((Run.exec onlyAssetsSucceed exampleAssets exampleBootkube
        [.callReturns .createAssets]).sentBy .createAssets).length ≠ 1 := by
  decide

/-- C4, amended: in every execution, a goroutine whose call has not returned has
submitted nothing, and a goroutine whose call has returned `r` has submitted
exactly the one value `r`, except the asset goroutine after a success (`r` is
`nil`), which has submitted nothing. -/
theorem one_submission_per_unit (w : World) (asset : AssetPaths) (b : bootkube)
    (sched : List Event) (g : Goroutine) :
    (g ∈ (Run.exec w asset b sched).running → (Run.exec w asset b sched).sentBy g = []) ∧
    (g ∉ (Run.exec w asset b sched).running →
      ∃ r, w (Run.call asset b g) = .returns r ∧
        (Run.exec w asset b sched).sentBy g
          = if g = .createAssets ∧ r = none then [] else [r]) := by
  obtain ⟨h₁, h₂⟩ := (exec_sentBy w asset b sched).2 g
  refine ⟨h₁, fun h => ?_⟩
  obtain ⟨r, hw, hs⟩ := h₂ h
  exact ⟨r, hw, by rw [hs, sends_eq]⟩

/-- C4 at a concrete input: the API server's call has returned `bind failed` and
that is the one value its goroutine has submitted; the scheduler is still
running and has submitted nothing. -/
theorem one_submission_per_unit_witness :
    Goroutine.apiServer ∉
      (Run.exec apiServerExits exampleAssets exampleBootkube [.callReturns .apiServer]).running ∧
    (Run.exec apiServerExits exampleAssets exampleBootkube [.callReturns .apiServer]).sentBy
      .apiServer = [some "bind failed"] ∧
    (Run.exec apiServerExits exampleAssets exampleBootkube [.callReturns .apiServer]).sentBy
      .scheduler = [] := by
  have h₁ := one_submission_per_unit apiServerExits exampleAssets exampleBootkube
    [.callReturns .apiServer] .apiServer
  have h₂ := one_submission_per_unit apiServerExits exampleAssets exampleBootkube
    [.callReturns .apiServer] .scheduler
  refine ⟨by decide, ?_, h₂.1 (by decide)⟩
  obtain ⟨r, hr, hs⟩ := h₁.2 (by decide)
  have : r = some "bind failed" := by
    have h : Behaviour.returns (some "bind failed") = .returns r := hr
    injection h with h
    exact h.symm
  subst this
  rw [hs]; decide

/-! ## C5: the setup-task deadline -/

/-- C5, as stated, fails: when asset creation is the only call that ever returns,
`Run` does not return, however long that takes, until that call has returned;
no deadline of its own makes it return earlier. -/
theorem Run_waits_for_the_setup_task :
    ¬ ∃ sched : List Event, Event.callReturns .createAssets ∉ sched ∧
        Run assetsFailLate exampleAssets exampleBootkube sched ≠ none := by
  rintro ⟨sched, hnot, hrun⟩
  cases hr : Run assetsFailLate exampleAssets exampleBootkube sched with
  | none => exact hrun hr
  | some v =>
    obtain ⟨g, hg⟩ := Run_eq_some _ _ _ sched v hr
    obtain ⟨hmem, hw, _⟩ := exec_provenance _ _ _ sched (g, v) hg
    cases g
    case createAssets => exact hnot hmem
    all_goals cases hw

/-- C5, amended: `Run` enforces no deadline of its own.  It hands `assetTimeout`,
ten minutes, to asset creation and to readiness polling; what it returns is the
value returned by the call of one of its goroutines, after that call returned;
and while no call has returned, `Run` has not returned. -/
theorem Run_enforces_no_deadline (w : World) (asset : AssetPaths) (b : bootkube)
    (sched : List Event) :
    Run.call asset b .createAssets
      = .CreateAssets (filepath.Join [b.assetDir, asset.AssetPathManifests]) assetTimeout ∧
    Run.call asset b .waitUntilPodsRunning = .WaitUntilPodsRunning requiredPods assetTimeout ∧
    assetTimeout = 10 * 60 * 1000000000 ∧
    (∀ v, Run w asset b sched = some v →
      ∃ g, Event.callReturns g ∈ sched ∧ w (Run.call asset b g) = .returns v) ∧
    ((∀ g, Event.callReturns g ∉ sched) → Run w asset b sched = none) := by
  have key : ∀ v, Run w asset b sched = some v →
      ∃ g, Event.callReturns g ∈ sched ∧ w (Run.call asset b g) = .returns v := by
    intro v hv
    obtain ⟨g, hg⟩ := Run_eq_some w asset b sched v hv
    obtain ⟨h₁, h₂, _⟩ := exec_provenance w asset b sched (g, v) hg
    exact ⟨g, h₁, h₂⟩
  refine ⟨rfl, rfl, by norm_num [assetTimeout, time.Minute], key, fun hno => ?_⟩
  cases hr : Run w asset b sched with
  | none => rfl
  | some v =>
    obtain ⟨g, hmem, _⟩ := key v hr
    exact absurd hmem (hno g)

/-- C5 at a concrete input: asset creation is still working, no call has
returned, and `Run` is blocked although a receive was tried. -/
theorem Run_enforces_no_deadline_witness :
    (∀ g, Event.callReturns g ∉ [Event.receive]) ∧
    Run assetsFailLate exampleAssets exampleBootkube [.receive] = none :=
  ⟨by intro g; simp,
    (Run_enforces_no_deadline assetsFailLate exampleAssets exampleBootkube [.receive]).2.2.2.2
      (by intro g; simp)⟩

/-! ## C6: concurrent submissions -/

/-- C6, as stated, fails: when the API server and the controller manager both
submit an error, `Run` takes the first and the controller manager's submission
is never accepted: its goroutine stays blocked in its send whatever happens
afterwards. -/
theorem second_submission_is_never_accepted :
    (Goroutine.controller, some "lost lease") ∈
      (Run.exec twoComponentsExit exampleAssets exampleBootkube
        [.callReturns .apiServer, .callReturns .controller, .receive]).sendq ∧
    ¬ ∃ post : List Event, (Goroutine.controller, some "lost lease") ∉
      (Run.exec twoComponentsExit exampleAssets exampleBootkube
        ([.callReturns .apiServer, .callReturns .controller, .receive] ++ post)).sendq := by
  refine ⟨by decide, ?_⟩
  rintro ⟨post, hpost⟩
  apply hpost
  rw [exec_append]
  obtain ⟨_, l, hl⟩ := foldl_after_receive twoComponentsExit exampleAssets exampleBootkube post
    (Run.exec twoComponentsExit exampleAssets exampleBootkube
      [.callReturns .apiServer, .callReturns .controller, .receive]) (by decide)
  rw [hl]
  exact List.mem_append_left _ (by decide)

/-- C6, amended: no submission is lost and `Run` receives at most one.  Along every
execution the submissions made so far stay on record, each either received by
`Run` or still queued; `Run` holds at most one received value, and once
something has been submitted and the receive has happened it holds exactly the
oldest submission; from then on every other submitter stays blocked in its send
for good, the queue of blocked senders only growing. -/
theorem one_submission_is_received (w : World) (asset : AssetPaths) (b : bootkube)
    (pre post : List Event) :
    (Run.exec w asset b (pre ++ post)).received.length ≤ 1 ∧
    (∃ l, (Run.exec w asset b (pre ++ post)).submitted
        = (Run.exec w asset b pre).submitted ++ l) ∧
    (∀ x, (Run.exec w asset b pre).submitted.head? = some x → Event.receive ∈ post →
      (Run.exec w asset b (pre ++ post)).received = [x]) ∧
    ((Run.exec w asset b pre).received ≠ [] →
      (Run.exec w asset b (pre ++ post)).received = (Run.exec w asset b pre).received ∧
      ∃ l, (Run.exec w asset b (pre ++ post)).sendq = (Run.exec w asset b pre).sendq ++ l) := by
  refine ⟨exec_received_le w asset b _, ?_, fun x hx hmem => ?_, fun h => ?_⟩
  · rw [exec_append]; exact foldl_submitted w asset b post _
  · have hle := exec_received_le w asset b (pre ++ post)
    have hhead := (first_submission_wins w asset b _ x post hx).2 hmem
    rw [← exec_append] at hhead
    cases hr : (Run.exec w asset b (pre ++ post)).received with
    | nil => simp [hr] at hhead
    | cons y ys =>
      rw [hr] at hle hhead
      cases ys with
      | nil => simp at hhead; rw [hhead]
      | cons z zs => simp at hle
  · rw [exec_append]; exact foldl_after_receive w asset b post _ h

/-- C6 at a concrete input: the API server and the controller manager both
submit; after the receive `Run` holds the API server's error alone. -/
theorem one_submission_is_received_witness :
    (Run.exec twoComponentsExit exampleAssets exampleBootkube
      [.callReturns .apiServer, .callReturns .controller]).submitted.head?
      = some (.apiServer, some "bind failed") ∧
    (Run.exec twoComponentsExit exampleAssets exampleBootkube
      ([.callReturns .apiServer, .callReturns .controller] ++
        [.receive, .callReturns .scheduler, .receive])).received
      = [(.apiServer, some "bind failed")] :=
  ⟨by decide,
    (one_submission_is_received twoComponentsExit exampleAssets exampleBootkube
      [.callReturns .apiServer, .callReturns .controller]
      [.receive, .callReturns .scheduler, .receive]).2.2.1 _ (by decide) (by decide)⟩

/-! ## C7: the arguments of readiness polling -/

/-- C7: the readiness-polling goroutine, and no other, calls
`WaitUntilPodsRunning`; it passes exactly the four names `kubelet`,
`kube-apiserver`, `kube-scheduler` and `kube-controller-manager`, each once, and
the timeout it passes is the one passed to `CreateAssets`, ten minutes. -/
theorem readiness_polling_arguments (asset : AssetPaths) (b : bootkube) :
    Run.call asset b .waitUntilPodsRunning
      = .WaitUntilPodsRunning
          ["kubelet", "kube-apiserver", "kube-scheduler", "kube-controller-manager"]
          (10 * 60 * 1000000000) ∧
    List.Nodup ["kubelet", "kube-apiserver", "kube-scheduler", "kube-controller-manager"] ∧
    Run.call asset b .createAssets
      = .CreateAssets (filepath.Join [b.assetDir, asset.AssetPathManifests])
          (10 * 60 * 1000000000) ∧
    (∀ g pods timeout, Run.call asset b g = .WaitUntilPodsRunning pods timeout →
      g = .waitUntilPodsRunning) := by
  have ht : assetTimeout = 10 * 60 * 1000000000 := by norm_num [assetTimeout, time.Minute]
  refine ⟨?_, by decide, ?_, ?_⟩
  · simp [Run.call, requiredPods, ht]
  · simp [Run.call, ht]
  · intro g pods timeout h
    cases g <;> simp [Run.call] at h ⊢

/-! ## C9: a successful setup task -/

/-- C9, as stated, fails: when asset creation succeeds and no other call returns,
`Run` never returns; a successful asset creation does not unblock its receive. -/
theorem createAssets_success_does_not_unblock_Run :
    ¬ ∃ sched : List Event, Run onlyAssetsSucceed exampleAssets exampleBootkube sched ≠ none := by
  rintro ⟨sched, hrun⟩
  cases hr : Run onlyAssetsSucceed exampleAssets exampleBootkube sched with
  | none => exact hrun hr
  | some v =>
    obtain ⟨g, hg⟩ := Run_eq_some _ _ _ sched v hr
    obtain ⟨_, hw, hne⟩ := exec_provenance _ _ _ sched (g, v) hg
    cases g
    case createAssets =>
      have : v = none := by
        have h : (Behaviour.returns none) = .returns v := hw
        injection h with h
        exact h.symm
      exact hne rfl this
    all_goals cases hw

/-- C9, amended: of the two setup tasks only readiness polling unblocks `Run` by
succeeding.  If readiness polling succeeds when nothing has been submitted to
`errch` before, `Run` returns nothing but `nil`, and it has returned `nil` once
its receive has happened.  A successful asset creation submits nothing: the
return of its call leaves the submissions as they were, and as long as no other
call has returned, `Run` has not returned. -/
theorem only_readiness_success_unblocks_Run (w : World) (asset : AssetPaths) (b : bootkube)
    (pre post : List Event)
    (hw : w (Run.call asset b .waitUntilPodsRunning) = .returns none)
    (hfirst : (Run.exec w asset b pre).submitted = []) :
    ((Run w asset b (pre ++ Event.callReturns .waitUntilPodsRunning :: post) = none ∨
        Run w asset b (pre ++ Event.callReturns .waitUntilPodsRunning :: post) = some none) ∧
      (Event.receive ∈ post →
        Run w asset b (pre ++ Event.callReturns .waitUntilPodsRunning :: post) = some none)) ∧
    (w (Run.call asset b .createAssets) = .returns none →
      (∀ sched, (Run.exec w asset b (sched ++ [.callReturns .createAssets])).submitted
          = (Run.exec w asset b sched).submitted) ∧
      (∀ sched, (∀ g, Event.callReturns g ∈ sched → g = .createAssets) →
          Run w asset b sched = none)) := by
  have hrun : Goroutine.waitUntilPodsRunning ∈ (Run.exec w asset b pre).running :=
    running_of_nothing_submitted w asset b pre _ (by decide) hfirst
  constructor
  · have hstep : (Run.step w asset b (Run.exec w asset b pre)
        (.callReturns .waitUntilPodsRunning)).submitted.head?
        = some (.waitUntilPodsRunning, none) := by
      simp only [RunState.submitted] at hfirst
      obtain ⟨h₁, h₂⟩ := List.append_eq_nil.mp hfirst
      simp [Run.step, hrun, hw, RunState.submitted, h₁, h₂, Run.sends]
    have hexec : Run.exec w asset b (pre ++ Event.callReturns .waitUntilPodsRunning :: post)
        = post.foldl (Run.step w asset b)
            (Run.step w asset b (Run.exec w asset b pre) (.callReturns .waitUntilPodsRunning)) := by
      rw [exec_append, List.foldl_cons]
    obtain ⟨h₁, h₂⟩ := first_submission_wins w asset b _ _ post hstep
    unfold Run
    rw [hexec]
    refine ⟨?_, fun hmem => by rw [h₂ hmem]; rfl⟩
    rcases h₁ with h | h
    · left; rw [h]; rfl
    · right; rw [h]; rfl
  · intro hassets
    refine ⟨fun sched => ?_, fun sched honly => ?_⟩
    · rw [exec_snoc]
      rcases step_callReturns_cases w asset b (Run.exec w asset b sched) .createAssets
        with h | ⟨err, _, hw', h⟩
      · rw [h]
      · rw [hassets] at hw'
        injection hw' with hw'
        subst hw'
        rw [h]
        simp [RunState.submitted, Run.sends]
    · cases hr : Run w asset b sched with
      | none => rfl
      | some v =>
        obtain ⟨g, hg⟩ := Run_eq_some w asset b sched v hr
        obtain ⟨hmem, hw', hne⟩ := exec_provenance w asset b sched (g, v) hg
        have hgc : g = .createAssets := honly g hmem
        subst hgc
        rw [hassets] at hw'
        injection hw' with hw'
        exact absurd hw'.symm (hne rfl)

/-- C9 at a concrete input: both setup tasks succeed and no component exits;
asset creation finishes first, then readiness polling, then `Run` receives. -/
theorem only_readiness_success_unblocks_Run_witness :
    setupSucceeds (Run.call exampleAssets exampleBootkube .waitUntilPodsRunning)
      = .returns none ∧
    (Run.exec setupSucceeds exampleAssets exampleBootkube [.callReturns .createAssets]).submitted
      = [] ∧
    Run setupSucceeds exampleAssets exampleBootkube
      ([.callReturns .createAssets] ++ Event.callReturns .waitUntilPodsRunning ::
        [.callReturns .scheduler, .receive]) = some none :=
  ⟨by decide, by decide,
    (only_readiness_success_unblocks_Run setupSucceeds exampleAssets exampleBootkube
      [.callReturns .createAssets] [.callReturns .scheduler, .receive]
      (by decide) (by decide)).1.2 (by decide)⟩

/-! ## C3: `NewBootkube` and malformed configurations -/

/-- C3, as stated, fails: for a configuration with an empty asset directory
`NewBootkube` returns no construction error, whatever the flag parser does, and
it returns an orchestrator with a `nil` error when the parser accepts the
arguments; for a nil endpoint it panics instead of returning an error. -/
theorem NewBootkube_accepts_empty_AssetDir :
    emptyDirConfig.AssetDir = "" ∧
    (¬ ∃ parse r e, NewBootkube parse exampleAssets emptyDirConfig = .returned (r, some e)) ∧
    NewBootkube exampleParser exampleAssets emptyDirConfig
      = .returned (some (NewBootkube.assemble exampleAssets "" ⟨"http://127.0.0.1:2379"⟩), none) ∧
    (¬ ∃ parse r, NewBootkube parse exampleAssets { AssetDir := "/tmp/x", EtcdServer := none }
      = .returned r) := by
  refine ⟨rfl, ?_, by decide, ?_⟩
  · rintro ⟨parse, r, e, h⟩
    obtain ⟨u, _, hr⟩ := NewBootkube_returned parse exampleAssets emptyDirConfig _ h
    injection hr with _ hr
    cases hr
  · rintro ⟨parse, r, h⟩
    obtain ⟨u, hu, _⟩ := NewBootkube_returned parse exampleAssets _ _ h
    cases hu

/-- C3, amended: `NewBootkube` validates nothing and never returns a construction
error.  Whatever it returns is an orchestrator built from the configuration
together with a `nil` error.  For a nil endpoint it panics on the dereference.
For any other configuration, whatever the asset directory, it returns when the
flag parser accepts the three argument lists, and the process exits when the
parser rejects one of them. -/
theorem NewBootkube_never_returns_an_error (parse : Parser) (asset : AssetPaths) (c : Config) :
    (∀ r e, NewBootkube parse asset c ≠ .returned (r, some e)) ∧
    (∀ r, NewBootkube parse asset c = .returned r →
      ∃ u, c.EtcdServer = some u ∧
        r = (some (NewBootkube.assemble asset c.AssetDir u), none)) ∧
    (c.EtcdServer = none → ∃ msg, NewBootkube parse asset c = .panicked msg) ∧
    (∀ u, c.EtcdServer = some u →
      ((parse "apiserver" (NewBootkube.apiServerArgs asset c.AssetDir u) = none ∧
          parse "controllermanager" (NewBootkube.cmServerArgs asset c.AssetDir) = none ∧
          parse "scheduler" NewBootkube.schedServerArgs = none) →
        NewBootkube parse asset c
          = .returned (some (NewBootkube.assemble asset c.AssetDir u), none)) ∧
      (¬ (parse "apiserver" (NewBootkube.apiServerArgs asset c.AssetDir u) = none ∧
          parse "controllermanager" (NewBootkube.cmServerArgs asset c.AssetDir) = none ∧
          parse "scheduler" NewBootkube.schedServerArgs = none) →
        NewBootkube parse asset c = .exited)) := by
  refine ⟨fun r e h => ?_, fun r h => NewBootkube_returned parse asset c r h, fun h => ?_,
    fun u h => ⟨fun hacc => ?_, fun hrej => ?_⟩⟩
  · obtain ⟨u, _, hr⟩ := NewBootkube_returned parse asset c _ h
    injection hr with _ hr
    cases hr
  · exact ⟨"runtime error: invalid memory address or nil pointer dereference",
      by simp only [NewBootkube, h]⟩
  · rw [NewBootkube_of_some parse asset c u h, if_pos hacc]
  · rw [NewBootkube_of_some parse asset c u h, if_neg hrej]

/-- C3 at concrete inputs: an empty asset directory is accepted, and an endpoint
that the parser rejects ends the process without a returned error. -/
theorem NewBootkube_never_returns_an_error_witness :
    emptyDirConfig.EtcdServer = some ⟨"http://127.0.0.1:2379"⟩ ∧
    NewBootkube exampleParser exampleAssets emptyDirConfig
      = .returned (some (NewBootkube.assemble exampleAssets "" ⟨"http://127.0.0.1:2379"⟩), none) ∧
    NewBootkube exampleParser exampleAssets quotedEndpointConfig = .exited :=
  ⟨rfl,
    ((NewBootkube_never_returns_an_error exampleParser exampleAssets emptyDirConfig).2.2.2
      ⟨"http://127.0.0.1:2379"⟩ rfl).1 (by decide),
    ((NewBootkube_never_returns_an_error exampleParser exampleAssets quotedEndpointConfig).2.2.2
      _ rfl).2 (by decide)⟩

/-! ## C8: how the settings depend on the configuration -/

/-- C8: for every configuration with an endpoint, the orchestrator `NewBootkube`
assembles, which is what it returns whenever it returns and what it does return
when the flag parser accepts the arguments, has `Config.AssetDir` as its asset
directory; the API server's `--etcd-servers` is the string form of
`Config.EtcdServer`; the four file flags of the API server and the two of the
controller manager are the join of `Config.AssetDir` with a fixed asset path;
and against any other configuration, both components are given the same flags
in the same order, every other flag has the same value, and the scheduler's
settings are the same. -/
theorem settings_depend_on_config (parse : Parser) (asset : AssetPaths) (c : Config) (u : URL)
    (h : c.EtcdServer = some u) :
    ∃ b, b = NewBootkube.assemble asset c.AssetDir u ∧
      (∀ r, NewBootkube parse asset c = .returned r → r = (some b, none)) ∧
      ((parse "apiserver" (NewBootkube.apiServerArgs asset c.AssetDir u) = none ∧
          parse "controllermanager" (NewBootkube.cmServerArgs asset c.AssetDir) = none ∧
          parse "scheduler" NewBootkube.schedServerArgs = none) →
        NewBootkube parse asset c = .returned (some b, none)) ∧
      b.assetDir = c.AssetDir ∧
      flagValue "etcd-servers" b.apiServer.args = some u.String ∧
      flagValue "tls-private-key-file" b.apiServer.args
        = some (filepath.Join [c.AssetDir, asset.AssetPathAPIServerKey]) ∧
      flagValue "tls-cert-file" b.apiServer.args
        = some (filepath.Join [c.AssetDir, asset.AssetPathAPIServerCert]) ∧
      flagValue "client-ca-file" b.apiServer.args
        = some (filepath.Join [c.AssetDir, asset.AssetPathCACert]) ∧
      flagValue "service-account-key-file" b.apiServer.args
        = some (filepath.Join [c.AssetDir, asset.AssetPathServiceAccountPubKey]) ∧
      flagValue "service-account-private-key-file" b.controller.args
        = some (filepath.Join [c.AssetDir, asset.AssetPathServiceAccountPrivKey]) ∧
      flagValue "root-ca-file" b.controller.args
        = some (filepath.Join [c.AssetDir, asset.AssetPathCACert]) ∧
      ∀ c' u' b', c'.EtcdServer = some u' →
        (b' = NewBootkube.assemble asset c'.AssetDir u' ∨
          ∃ parse', NewBootkube parse' asset c' = .returned (some b', none)) →
        flagNames b'.apiServer.args = flagNames b.apiServer.args ∧
        (∀ name, name ∉ ["etcd-servers", "tls-private-key-file", "tls-cert-file",
            "client-ca-file", "service-account-key-file"] →
          flagValue name b'.apiServer.args = flagValue name b.apiServer.args) ∧
        flagNames b'.controller.args = flagNames b.controller.args ∧
        (∀ name, name ∉ ["service-account-private-key-file", "root-ca-file"] →
          flagValue name b'.controller.args = flagValue name b.controller.args) ∧
        b'.scheduler = b.scheduler := by
  refine ⟨_, rfl, fun r hr => ?_, fun hacc => ?_, rfl, ?_, ?_, ?_, ?_, ?_, ?_, ?_, ?_⟩
  · obtain ⟨u₁, hu₁, hr⟩ := NewBootkube_returned parse asset c r hr
    rw [h] at hu₁
    injection hu₁ with hu₁
    subst hu₁
    exact hr
  · rw [NewBootkube_of_some parse asset c u h, if_pos hacc]
  · simp [NewBootkube.assemble, flagValue, apiServerArgs_flags, List.find?_cons]
  · simp [NewBootkube.assemble, flagValue, apiServerArgs_flags, List.find?_cons]
  · simp [NewBootkube.assemble, flagValue, apiServerArgs_flags, List.find?_cons]
  · simp [NewBootkube.assemble, flagValue, apiServerArgs_flags, List.find?_cons]
  · simp [NewBootkube.assemble, flagValue, apiServerArgs_flags, List.find?_cons]
  · simp [NewBootkube.assemble, flagValue, cmServerArgs_flags, List.find?_cons]
  · simp [NewBootkube.assemble, flagValue, cmServerArgs_flags, List.find?_cons]
  · intro c' u' b' h' hb'
    have hb : b' = NewBootkube.assemble asset c'.AssetDir u' := by
      rcases hb' with hb' | ⟨parse', hret⟩
      · exact hb'
      · obtain ⟨u₁, hu₁, hr⟩ := NewBootkube_returned parse' asset c' _ hret
        rw [h'] at hu₁
        injection hu₁ with hu₁
        subst hu₁
        injection hr with hr _
        injection hr
    subst hb
    refine ⟨?_, fun name hn => ?_, ?_, fun name hn => ?_, rfl⟩
    · simp [NewBootkube.assemble, flagNames, apiServerArgs_flags]
    · simp only [List.mem_cons, List.mem_singleton, List.not_mem_nil, or_false, not_or] at hn
      obtain ⟨n₁, n₂, n₃, n₄, n₅⟩ := hn
      unfold flagValue
      apply find_agree
      simp only [NewBootkube.assemble, apiServerArgs_flags]
      simp [Ne.symm n₁, Ne.symm n₂, Ne.symm n₃, Ne.symm n₄, Ne.symm n₅]
    · simp [NewBootkube.assemble, flagNames, cmServerArgs_flags]
    · simp only [List.mem_cons, List.mem_singleton, List.not_mem_nil, or_false, not_or] at hn
      obtain ⟨n₁, n₂⟩ := hn
      unfold flagValue
      apply find_agree
      simp only [NewBootkube.assemble, cmServerArgs_flags]
      simp [Ne.symm n₁, Ne.symm n₂]

/-- C8 at a concrete input: the example configuration, whose arguments the
example parser accepts. -/
theorem settings_depend_on_config_witness :
    exampleConfig.EtcdServer = some ⟨"http://127.0.0.1:2379"⟩ ∧
    ∃ b, NewBootkube exampleParser exampleAssets exampleConfig = .returned (some b, none) ∧
      b.assetDir = "/tmp/x" ∧
      flagValue "etcd-servers" b.apiServer.args = some "http://127.0.0.1:2379" ∧
      flagValue "tls-private-key-file" b.apiServer.args = some "/tmp/x/tls/apiserver.key" := by
  refine ⟨rfl, ?_⟩
  obtain ⟨b, _, _, h₁, h₂, h₃, h₄, _⟩ :=
    settings_depend_on_config exampleParser exampleAssets exampleConfig
      ⟨"http://127.0.0.1:2379"⟩ rfl
  exact ⟨b, h₁ (by decide), h₂, h₃, h₄⟩

/-! ## C10: the staggered insecure port -/

/-- C10: for every configuration with an endpoint, in the orchestrator
`NewBootkube` assembles, which is what it returns whenever it returns and what
it does return when the flag parser accepts the arguments, the API server is
given `--insecure-port` equal to the port of `insecureAPIAddr`, which is
`http://127.0.0.1:8081`; the controller manager and the scheduler are both given
`--master` equal to `insecureAPIAddr`; and that port, `8081`, is not the standard
`8080`. -/
theorem insecure_port_is_staggered (parse : Parser) (asset : AssetPaths) (c : Config) (u : URL)
    (h : c.EtcdServer = some u) :
    ∃ b, b = NewBootkube.assemble asset c.AssetDir u ∧
      (∀ r, NewBootkube parse asset c = .returned r → r = (some b, none)) ∧
      ((parse "apiserver" (NewBootkube.apiServerArgs asset c.AssetDir u) = none ∧
          parse "controllermanager" (NewBootkube.cmServerArgs asset c.AssetDir) = none ∧
          parse "scheduler" NewBootkube.schedServerArgs = none) →
        NewBootkube parse asset c = .returned (some b, none)) ∧
      insecureAPIAddr = "http://127.0.0.1:8081" ∧
      flagValue "insecure-port" b.apiServer.args = some (addrPort insecureAPIAddr) ∧
      flagValue "master" b.controller.args = some insecureAPIAddr ∧
      flagValue "master" b.scheduler.args = some insecureAPIAddr ∧
      addrPort insecureAPIAddr = "8081" ∧
      addrPort insecureAPIAddr ≠ "8080" := by
  have hport : addrPort insecureAPIAddr = "8081" := by decide
  have hsched : flagValue "master" NewBootkube.schedServerArgs = some insecureAPIAddr := by
    decide
  refine ⟨_, rfl, fun r hr => ?_, fun hacc => ?_, rfl, ?_, ?_, hsched, hport, by decide⟩
  · obtain ⟨u₁, hu₁, hr⟩ := NewBootkube_returned parse asset c r hr
    rw [h] at hu₁
    injection hu₁ with hu₁
    subst hu₁
    exact hr
  · rw [NewBootkube_of_some parse asset c u h, if_pos hacc]
  · rw [hport]; simp [NewBootkube.assemble, flagValue, apiServerArgs_flags, List.find?_cons]
  · simp [NewBootkube.assemble, flagValue, cmServerArgs_flags, List.find?_cons]

/-- C10 at a concrete input: the example configuration, whose arguments the
example parser accepts. -/
theorem insecure_port_is_staggered_witness :
    exampleConfig.EtcdServer = some ⟨"http://127.0.0.1:2379"⟩ ∧
    ∃ b, NewBootkube exampleParser exampleAssets exampleConfig = .returned (some b, none) ∧
      flagValue "insecure-port" b.apiServer.args = some "8081" ∧
      flagValue "master" b.controller.args = some "http://127.0.0.1:8081" ∧
      flagValue "master" b.scheduler.args = some "http://127.0.0.1:8081" := by
  refine ⟨rfl, ?_⟩
  obtain ⟨b, _, _, h₁, h₂, h₃, h₄, h₅, h₆, _⟩ :=
    insecure_port_is_staggered exampleParser exampleAssets exampleConfig
      ⟨"http://127.0.0.1:2379"⟩ rfl
  exact ⟨b, h₁ (by decide), by rw [h₃, h₆], by rw [h₄, h₂], by rw [h₅, h₂]⟩

end Bootkube
